import Mathlib

/-!
Verification of the task-state engine of the todo-list application
(`src/app.py`).  The Python code keeps a list of task dictionaries and a
`next_id` counter in `st.session_state`; here that session state is the
explicit `TaskStore` structure and every operation is a pure function from
store to store.  The wall-clock timestamp read by `add_todo`
(`datetime.now().strftime(...)`) is an external input, so it is passed as an
explicit `now : String` argument.
-/

namespace TodoApp

/-- A single todo entry, mirroring the Python dict
`{'id': ..., 'text': ..., 'completed': ..., 'created_at': ...}`. -/
structure Task where
  id : Nat
  text : String
  completed : Bool
  created_at : String
deriving Repr, DecidableEq

/-- The session state used by the operations: the ordered task list
`st.session_state.todos` and the counter `st.session_state.next_id`. -/
structure TaskStore where
  todos : List Task
  next_id : Nat
deriving Repr, DecidableEq

/-- Python's `str.strip()` with no argument: remove leading and trailing
whitespace characters. -/
def strip (text : String) : String :=
  ⟨((text.data.dropWhile Char.isWhitespace).reverse.dropWhile
      Char.isWhitespace).reverse⟩

/-- `initialize_session_state`: the store starts empty with `next_id = 1`. -/
def initialState : TaskStore := { todos := [], next_id := 1 }

/-- `add_todo(text)`: if `text.strip()` is non-empty, append a new task with
`id = next_id`, trimmed text, `completed = False`, `created_at` = the current
timestamp, and increment `next_id`; otherwise do nothing. -/
def add_todo (now : String) (text : String) (s : TaskStore) : TaskStore :=
  if strip text = "" then s
  else
    { todos := s.todos ++
        [{ id := s.next_id, text := strip text, completed := false,
           created_at := now }],
      next_id := s.next_id + 1 }

/-- `delete_todo(todo_id)`: keep exactly the tasks whose id differs. -/
def delete_todo (todo_id : Nat) (s : TaskStore) : TaskStore :=
  { s with todos := s.todos.filter (fun todo => todo.id != todo_id) }

/-- The loop body of `toggle_todo`: flip `completed` on the first task whose
id matches, then `break`. -/
def toggleFirst (todo_id : Nat) : List Task → List Task
  | [] => []
  | todo :: rest =>
    if todo.id = todo_id then
      { todo with completed := !todo.completed } :: rest
    else
      todo :: toggleFirst todo_id rest

/-- `toggle_todo(todo_id)`: flip `completed` on the first matching task. -/
def toggle_todo (todo_id : Nat) (s : TaskStore) : TaskStore :=
  { s with todos := toggleFirst todo_id s.todos }

/-- The loop body of `update_todo`: replace `text` on the first task whose id
matches, then `break`. -/
def updateFirst (todo_id : Nat) (new_text : String) : List Task → List Task
  | [] => []
  | todo :: rest =>
    if todo.id = todo_id then
      { todo with text := new_text } :: rest
    else
      todo :: updateFirst todo_id new_text rest

/-- `update_todo(todo_id, new_text)`: if `new_text.strip()` is non-empty,
replace the text of the first matching task with the trimmed string;
otherwise do nothing. -/
def update_todo (todo_id : Nat) (new_text : String) (s : TaskStore) :
    TaskStore :=
  if strip new_text = "" then s
  else { s with todos := updateFirst todo_id (strip new_text) s.todos }

/-- `get_filtered_todos(filter_type)`: the source matches on the Korean
filter labels — "완료" (completed), "미완료" (incomplete), anything else
(in particular "전체") returns the whole list. -/
def get_filtered_todos (filter_type : String) (s : TaskStore) : List Task :=
  if filter_type = "완료" then
    s.todos.filter (fun todo => todo.completed)
  else if filter_type = "미완료" then
    s.todos.filter (fun todo => !todo.completed)
  else
    s.todos

/-- The record returned by `get_statistics`. -/
structure Statistics where
  total : Nat
  completed : Nat
  pending : Nat
deriving Repr, DecidableEq

/-- `get_statistics()`: total count, completed count, and their difference. -/
def get_statistics (s : TaskStore) : Statistics :=
  { total := s.todos.length,
    completed := (s.todos.filter (fun todo => todo.completed)).length,
    pending := s.todos.length -
      (s.todos.filter (fun todo => todo.completed)).length }

/-- `mark_all_completed()`: set `completed = True` on every task. -/
def mark_all_completed (s : TaskStore) : TaskStore :=
  { s with todos := s.todos.map (fun todo => { todo with completed := true }) }

/-- `delete_all_todos()`: empty the task list, leaving `next_id` alone. -/
def delete_all_todos (s : TaskStore) : TaskStore :=
  { s with todos := [] }

/-- One invocation of any store operation, with arbitrary caller-supplied
arguments (and arbitrary wall-clock time for `add_todo`). -/
inductive Step : TaskStore → TaskStore → Prop
  | add (now text : String) (s : TaskStore) : Step s (add_todo now text s)
  | del (todo_id : Nat) (s : TaskStore) : Step s (delete_todo todo_id s)
  | tog (todo_id : Nat) (s : TaskStore) : Step s (toggle_todo todo_id s)
  | upd (todo_id : Nat) (new_text : String) (s : TaskStore) :
      Step s (update_todo todo_id new_text s)
  | mark (s : TaskStore) : Step s (mark_all_completed s)
  | clear (s : TaskStore) : Step s (delete_all_todos s)

/-- Finitely many operation invocations leading from one store to another. -/
inductive StepStar : TaskStore → TaskStore → Prop
  | refl (s : TaskStore) : StepStar s s
  | tail {s t u : TaskStore} : StepStar s t → Step t u → StepStar s u

/-- A store state reachable from the freshly initialized session state. -/
def Reachable (s : TaskStore) : Prop := StepStar initialState s

/-! ### Helper lemmas about the loop bodies -/

theorem toggleFirst_map_id (i : Nat) (l : List Task) :
    (toggleFirst i l).map Task.id = l.map Task.id := by
  induction l with
  | nil => rfl
  | cons todo rest ih =>
    by_cases h : todo.id = i <;> simp [toggleFirst, h, ih]

theorem updateFirst_map_id (i : Nat) (nt : String) (l : List Task) :
    (updateFirst i nt l).map Task.id = l.map Task.id := by
  induction l with
  | nil => rfl
  | cons todo rest ih =>
    by_cases h : todo.id = i <;> simp [updateFirst, h, ih]

theorem toggleFirst_of_forall_ne (i : Nat) (l : List Task)
    (h : ∀ t ∈ l, t.id ≠ i) : toggleFirst i l = l := by
  induction l with
  | nil => rfl
  | cons todo rest ih =>
    have h0 := h todo (List.mem_cons_self todo rest)
    simp only [toggleFirst, if_neg h0]
    rw [ih (fun t ht => h t (List.mem_cons_of_mem todo ht))]

theorem updateFirst_of_forall_ne (i : Nat) (nt : String) (l : List Task)
    (h : ∀ t ∈ l, t.id ≠ i) : updateFirst i nt l = l := by
  induction l with
  | nil => rfl
  | cons todo rest ih =>
    have h0 := h todo (List.mem_cons_self todo rest)
    simp only [updateFirst, if_neg h0]
    rw [ih (fun t ht => h t (List.mem_cons_of_mem todo ht))]

theorem toggleFirst_toggleFirst (i : Nat) (l : List Task) :
    toggleFirst i (toggleFirst i l) = l := by
  induction l with
  | nil => rfl
  | cons todo rest ih =>
    by_cases h : todo.id = i
    · have e1 : toggleFirst i (todo :: rest) =
          { todo with completed := !todo.completed } :: rest := by
        simp [toggleFirst, h]
      have e2 : toggleFirst i
            ({ todo with completed := !todo.completed } :: rest) =
          { todo with completed := !(!todo.completed) } :: rest := by
        simp [toggleFirst, h]
      rw [e1, e2, Bool.not_not]
    · simp [toggleFirst, h, ih]

theorem map_if_id_eq_self (i : Nat) (f : Task → Task) (l : List Task)
    (h : ∀ t ∈ l, t.id ≠ i) :
    l.map (fun t => if t.id = i then f t else t) = l := by
  have : l.map (fun t => if t.id = i then f t else t) = l.map id :=
    List.map_congr_left (fun t ht => by simp [h t ht])
  simpa using this

theorem not_mem_of_nodup_cons {i : Nat} {todo : Task} {rest : List Task}
    (hn : ((todo :: rest).map Task.id).Nodup) (h0 : todo.id = i) :
    ∀ t ∈ rest, t.id ≠ i := by
  rw [List.map_cons, List.nodup_cons] at hn
  intro t ht he
  exact hn.1 (by rw [h0, ← he]; exact List.mem_map_of_mem Task.id ht)

theorem toggleFirst_eq_map {i : Nat} {l : List Task}
    (hn : (l.map Task.id).Nodup) :
    toggleFirst i l =
      l.map (fun t =>
        if t.id = i then { t with completed := !t.completed } else t) := by
  induction l with
  | nil => rfl
  | cons todo rest ih =>
    by_cases h : todo.id = i
    · simp only [toggleFirst, if_pos h, List.map_cons, if_pos h]
      rw [map_if_id_eq_self i _ rest (not_mem_of_nodup_cons hn h)]
    · rw [List.map_cons, List.nodup_cons] at hn
      simp only [toggleFirst, if_neg h, List.map_cons, if_neg h]
      rw [ih hn.2]

theorem updateFirst_eq_map {i : Nat} {nt : String} {l : List Task}
    (hn : (l.map Task.id).Nodup) :
    updateFirst i nt l =
      l.map (fun t => if t.id = i then { t with text := nt } else t) := by
  induction l with
  | nil => rfl
  | cons todo rest ih =>
    by_cases h : todo.id = i
    · simp only [updateFirst, if_pos h, List.map_cons, if_pos h]
      rw [map_if_id_eq_self i _ rest (not_mem_of_nodup_cons hn h)]
    · rw [List.map_cons, List.nodup_cons] at hn
      simp only [updateFirst, if_neg h, List.map_cons, if_neg h]
      rw [ih hn.2]

/-! ### The store invariant and its preservation -/

/-- The task ids are strictly increasing along the list (hence unique) and
all of them are below the counter. -/
def StoreInv (s : TaskStore) : Prop :=
  (s.todos.map Task.id).Pairwise (· < ·) ∧
  ∀ i ∈ s.todos.map Task.id, i < s.next_id

theorem storeInv_init : StoreInv initialState := by
  constructor
  · exact List.Pairwise.nil
  · intro i hi
    simp [initialState] at hi

theorem add_todo_storeInv (now text : String) (s : TaskStore)
    (hs : StoreInv s) : StoreInv (add_todo now text s) := by
  unfold add_todo
  by_cases h : strip text = ""
  · rwa [if_pos h]
  · rw [if_neg h]
    obtain ⟨hp, hb⟩ := hs
    constructor
    · simp only [List.map_append, List.map_cons, List.map_nil]
      rw [List.pairwise_append]
      refine ⟨hp, List.pairwise_singleton _ _, ?_⟩
      intro a ha b hb2
      simp only [List.mem_singleton] at hb2
      subst hb2
      exact hb a ha
    · intro i hi
      simp only [List.map_append, List.map_cons, List.map_nil,
        List.mem_append, List.mem_singleton] at hi
      rcases hi with hi | hi
      · exact Nat.lt_succ_of_lt (hb i hi)
      · subst hi; exact Nat.lt_succ_self _


theorem delete_todo_storeInv (todo_id : Nat) (s : TaskStore)
    (hs : StoreInv s) : StoreInv (delete_todo todo_id s) := by
  obtain ⟨hp, hb⟩ := hs
  have hsub : List.Sublist ((delete_todo todo_id s).todos.map Task.id)
      (s.todos.map Task.id) :=
    (List.filter_sublist s.todos).map Task.id
  exact ⟨hp.sublist hsub, fun i hi => hb i (hsub.mem hi)⟩

theorem toggle_todo_storeInv (todo_id : Nat) (s : TaskStore)
    (hs : StoreInv s) : StoreInv (toggle_todo todo_id s) := by
  obtain ⟨hp, hb⟩ := hs
  constructor
  · rw [toggle_todo, toggleFirst_map_id]; exact hp
  · intro i hi
    rw [toggle_todo] at hi
    rw [toggleFirst_map_id] at hi
    exact hb i hi

theorem update_todo_storeInv (todo_id : Nat) (new_text : String)
    (s : TaskStore) (hs : StoreInv s) :
    StoreInv (update_todo todo_id new_text s) := by
  unfold update_todo
  by_cases h : strip new_text = ""
  · rwa [if_pos h]
  · rw [if_neg h]
    obtain ⟨hp, hb⟩ := hs
    constructor
    · show ((updateFirst todo_id (strip new_text) s.todos).map
        Task.id).Pairwise (· < ·)
      rw [updateFirst_map_id]; exact hp
    · intro i hi
      have hi2 : i ∈ (updateFirst todo_id (strip new_text) s.todos).map
          Task.id := hi
      rw [updateFirst_map_id] at hi2
      exact hb i hi2

theorem mark_all_completed_storeInv (s : TaskStore) (hs : StoreInv s) :
    StoreInv (mark_all_completed s) := by
  obtain ⟨hp, hb⟩ := hs
  have hm : (mark_all_completed s).todos.map Task.id = s.todos.map Task.id := by
    rw [mark_all_completed]
    simp [List.map_map, Function.comp]
  exact ⟨by rw [hm]; exact hp, fun i hi => hb i (by rwa [hm] at hi)⟩

theorem delete_all_todos_storeInv (s : TaskStore) (_hs : StoreInv s) :
    StoreInv (delete_all_todos s) := by
  exact ⟨List.Pairwise.nil, by intro i hi; simp [delete_all_todos] at hi⟩

theorem step_storeInv {s s' : TaskStore} (h : Step s s') (hs : StoreInv s) :
    StoreInv s' := by
  cases h with
  | add now text s => exact add_todo_storeInv now text s hs
  | del todo_id s => exact delete_todo_storeInv todo_id s hs
  | tog todo_id s => exact toggle_todo_storeInv todo_id s hs
  | upd todo_id new_text s => exact update_todo_storeInv todo_id new_text s hs
  | mark s => exact mark_all_completed_storeInv s hs
  | clear s => exact delete_all_todos_storeInv s hs

theorem step_next_id_le {s s' : TaskStore} (h : Step s s') :
    s.next_id ≤ s'.next_id := by
  cases h with
  | add now text s =>
    unfold add_todo
    by_cases h : strip text = ""
    · rw [if_pos h]
    · rw [if_neg h]; exact Nat.le_succ _
  | del todo_id s => exact Nat.le_refl _
  | tog todo_id s => exact Nat.le_refl _
  | upd todo_id new_text s =>
    unfold update_todo
    by_cases h : strip new_text = ""
    · rw [if_pos h]
    · rw [if_neg h]
  | mark s => exact Nat.le_refl _
  | clear s => exact Nat.le_refl _

theorem stepStar_storeInv {s s' : TaskStore} (h : StepStar s s')
    (hs : StoreInv s) : StoreInv s' := by
  induction h with
  | refl => exact hs
  | tail hst hstep ih => exact step_storeInv hstep ih

theorem stepStar_next_id_le {s s' : TaskStore} (h : StepStar s s') :
    s.next_id ≤ s'.next_id := by
  induction h with
  | refl => exact Nat.le_refl _
  | tail hst hstep ih => exact Nat.le_trans ih (step_next_id_le hstep)

theorem reachable_storeInv {s : TaskStore} (h : Reachable s) : StoreInv s :=
  stepStar_storeInv h storeInv_init

/-! ### Claim theorems -/

/-- C1: `create(text)` is a no-op when the text strips to the empty string
(store and counter unchanged, no error); otherwise it appends exactly one
new task whose id is the pre-call `next_id`, whose text is the stripped
input, whose completed flag is `false` and whose `created_at` is the
timestamp captured at creation, then increments `next_id` by one, leaving
all previously existing tasks unchanged. -/
theorem spec_create_appends (now text : String) (s : TaskStore) :
    (strip text = "" → add_todo now text s = s) ∧
    (strip text ≠ "" →
      (add_todo now text s).todos =
        s.todos ++
          [{ id := s.next_id, text := strip text, completed := false,
             created_at := now }] ∧
      (add_todo now text s).next_id = s.next_id + 1) := by
  constructor
  · intro h; simp [add_todo, h]
  · intro h; simp [add_todo, h]

/-- Witness for C1 at concrete inputs: blank input is a no-op, and a real
input appends the stripped task with id 1 and bumps the counter to 2. -/
theorem spec_create_appends_witness :
    add_todo "2025-10-12 09:00" "   " initialState = initialState ∧
    (add_todo "2025-10-12 09:00" "  Buy milk  " initialState).todos =
      [{ id := 1, text := "Buy milk", completed := false,
         created_at := "2025-10-12 09:00" }] ∧
    (add_todo "2025-10-12 09:00" "  Buy milk  " initialState).next_id = 2 := by
  have h1 := (spec_create_appends "2025-10-12 09:00" "   " initialState).1
    (by decide)
  have h2 := (spec_create_appends "2025-10-12 09:00" "  Buy milk  "
    initialState).2 (by decide)
  refine ⟨h1, ?_, h2.2⟩
  rw [h2.1]
  rfl

/-- C2: in every reachable store state the task ids are strictly increasing
along the list and pairwise unique, every present id is below `next_id`,
and for any later state `s'` reached from `s` the counter of `s'` still
strictly dominates every id that was present in `s` — so ids of tasks
deleted in the meantime are never reached again. -/
theorem spec_ids_unique_monotone (s s' : TaskStore) (h : Reachable s)
    (hss : StepStar s s') :
    ((s'.todos.map Task.id).Pairwise (· < ·) ∧
      (s'.todos.map Task.id).Nodup ∧
      ∀ t ∈ s'.todos, t.id < s'.next_id) ∧
    (∀ t ∈ s.todos, t.id < s'.next_id) := by
  have hs : StoreInv s := reachable_storeInv h
  have hs' : StoreInv s' := stepStar_storeInv hss hs
  have hmono := stepStar_next_id_le hss
  refine ⟨⟨hs'.1, hs'.1.imp (fun hlt => Nat.ne_of_lt hlt), ?_⟩, ?_⟩
  · intro t ht
    exact hs'.2 t.id (List.mem_map_of_mem Task.id ht)
  · intro t ht
    exact Nat.lt_of_lt_of_le (hs.2 t.id (List.mem_map_of_mem Task.id ht))
      hmono

/-- Witness for C2: the run create "Buy milk"; delete 1 reaches a state
whose id list is duplicate-free. -/
theorem spec_ids_unique_monotone_witness :
    ((delete_todo 1 (add_todo "09:00" "Buy milk" initialState)).todos.map
      Task.id).Nodup :=
  (spec_ids_unique_monotone (add_todo "09:00" "Buy milk" initialState)
    (delete_todo 1 (add_todo "09:00" "Buy milk" initialState))
    (StepStar.tail (StepStar.refl initialState)
      (Step.add "09:00" "Buy milk" initialState))
    (StepStar.tail (StepStar.refl (add_todo "09:00" "Buy milk" initialState))
      (Step.del 1 (add_todo "09:00" "Buy milk" initialState)))).1.2.1

/-- Two stores with the same field values are equal. -/
theorem taskStore_eq {a b : TaskStore} (h1 : a.todos = b.todos)
    (h2 : a.next_id = b.next_id) : a = b := by
  cases a; cases b; cases h1; cases h2; rfl

/-- Deleting a present id from a duplicate-free list shortens it by exactly
one element. -/
theorem filter_ne_length_of_mem {i : Nat} {l : List Task}
    (hn : (l.map Task.id).Nodup) (t : Task) (ht : t ∈ l) (hi : t.id = i) :
    (l.filter (fun todo => todo.id != i)).length + 1 = l.length := by
  induction l with
  | nil => cases ht
  | cons todo rest ih =>
    rw [List.map_cons, List.nodup_cons] at hn
    by_cases h : todo.id = i
    · have hrest : ∀ u ∈ rest, u.id ≠ i := by
        intro u hu he
        apply hn.1
        rw [h, ← he]
        exact List.mem_map_of_mem Task.id hu
      have hfilter : rest.filter (fun todo => todo.id != i) = rest :=
        List.filter_eq_self.mpr (fun u hu => by
          simp [bne_iff_ne, hrest u hu])
      rw [List.filter_cons]
      have hcond : (todo.id != i) = false := by simp [h]
      rw [hcond]
      simp [hfilter]
    · have ht2 : t ∈ rest := by
        rcases List.mem_cons.mp ht with he | hr
        · exfalso; rw [he] at hi; exact h hi
        · exact hr
      rw [List.filter_cons]
      have hcond : (todo.id != i) = true := by simp [h]
      rw [hcond]
      simp only [if_true, List.length_cons]
      rw [← ih hn.2 ht2]

/-- C3: `delete(id)` keeps the remaining tasks as an in-order subsequence,
drops every task carrying the id, keeps every other task, shortens a
duplicate-free store by exactly one task when the id is present, is a no-op
when the id is absent, never touches `next_id`, and is idempotent. -/
theorem spec_delete_removes (todo_id : Nat) (s : TaskStore) :
    List.Sublist (delete_todo todo_id s).todos s.todos ∧
    (∀ t ∈ (delete_todo todo_id s).todos, t.id ≠ todo_id) ∧
    (∀ t ∈ s.todos, t.id ≠ todo_id → t ∈ (delete_todo todo_id s).todos) ∧
    ((s.todos.map Task.id).Nodup → ∀ t ∈ s.todos, t.id = todo_id →
      (delete_todo todo_id s).todos.length + 1 = s.todos.length) ∧
    ((∀ t ∈ s.todos, t.id ≠ todo_id) → delete_todo todo_id s = s) ∧
    (delete_todo todo_id s).next_id = s.next_id ∧
    delete_todo todo_id (delete_todo todo_id s) = delete_todo todo_id s := by
  refine ⟨List.filter_sublist s.todos, ?_, ?_, ?_, ?_, rfl, ?_⟩
  · intro t ht
    have := (List.mem_filter.mp ht).2
    simpa [bne_iff_ne] using this
  · intro t ht hne
    exact List.mem_filter.mpr ⟨ht, by simp [bne_iff_ne, hne]⟩
  · intro hn t ht hi
    exact filter_ne_length_of_mem hn t ht hi
  · intro h
    exact taskStore_eq
      (List.filter_eq_self.mpr (fun t ht => by simp [bne_iff_ne, h t ht]))
      rfl
  · exact taskStore_eq
      (List.filter_eq_self.mpr (fun t ht => (List.mem_filter.mp ht).2))
      rfl

/-- Witness for C3 at concrete inputs: deleting an absent id is a no-op,
deleting twice equals deleting once, and deleting a present id from a
one-element store removes exactly one task. -/
theorem spec_delete_removes_witness :
    delete_todo 5 (add_todo "t" "a" initialState) =
      add_todo "t" "a" initialState ∧
    delete_todo 1 (delete_todo 1 (add_todo "t" "a" initialState)) =
      delete_todo 1 (add_todo "t" "a" initialState) ∧
    (delete_todo 1 (add_todo "t" "a" initialState)).todos.length + 1 =
      (add_todo "t" "a" initialState).todos.length := by
  have h5 := spec_delete_removes 5 (add_todo "t" "a" initialState)
  have h1 := spec_delete_removes 1 (add_todo "t" "a" initialState)
  exact ⟨h5.2.2.2.2.1 (by decide), h1.2.2.2.2.2.2,
    h1.2.2.2.1 (by decide)
      { id := 1, text := "a", completed := false, created_at := "t" }
      (by decide) (by decide)⟩

/-- C4: `update(id, new_text)` is a no-op when the replacement strips to the
empty string and when the id is absent, never touches `next_id`, and when
the stripped replacement is non-empty and the ids are duplicate-free it
replaces exactly the text of the matching task with the stripped string,
leaving every other task and every other field unchanged. -/
theorem spec_update_replaces (todo_id : Nat) (new_text : String)
    (s : TaskStore) :
    (strip new_text = "" → update_todo todo_id new_text s = s) ∧
    ((∀ t ∈ s.todos, t.id ≠ todo_id) → update_todo todo_id new_text s = s) ∧
    (update_todo todo_id new_text s).next_id = s.next_id ∧
    (strip new_text ≠ "" → (s.todos.map Task.id).Nodup →
      (update_todo todo_id new_text s).todos =
        s.todos.map (fun t =>
          if t.id = todo_id then { t with text := strip new_text } else t)) := by
  refine ⟨?_, ?_, ?_, ?_⟩
  · intro h; simp [update_todo, h]
  · intro h
    unfold update_todo
    by_cases hs : strip new_text = ""
    · rw [if_pos hs]
    · rw [if_neg hs, updateFirst_of_forall_ne todo_id (strip new_text)
        s.todos h]
  · unfold update_todo
    by_cases hs : strip new_text = ""
    · rw [if_pos hs]
    · rw [if_neg hs]
  · intro h hn
    unfold update_todo
    rw [if_neg h]
    exact updateFirst_eq_map hn

/-- Witness for C4 at concrete inputs: a blank edit and an edit targeting an
absent id are no-ops, while `update(1, "  new  ")` stores the text `"new"`. -/
theorem spec_update_replaces_witness :
    update_todo 1 "   " (add_todo "t" "a" initialState) =
      add_todo "t" "a" initialState ∧
    (update_todo 1 "  new  " (add_todo "t" "a" initialState)).todos =
      [{ id := 1, text := "new", completed := false, created_at := "t" }] ∧
    update_todo 9 "x" (add_todo "t" "a" initialState) =
      add_todo "t" "a" initialState := by
  have h1 := spec_update_replaces 1 "   " (add_todo "t" "a" initialState)
  have h2 := spec_update_replaces 1 "  new  " (add_todo "t" "a" initialState)
  have h9 := spec_update_replaces 9 "x" (add_todo "t" "a" initialState)
  refine ⟨h1.1 (by decide), ?_, h9.2.1 (by decide)⟩
  rw [h2.2.2.2 (by decide) (by decide)]
  decide

/-- C5: `toggle(id)` applied twice restores the whole store, a toggle of an
absent id is a silent no-op, `next_id` is untouched, and on a store with
duplicate-free ids a toggle flips exactly the completed flag of the matching
task, leaving every other task and every other field unchanged. -/
theorem spec_toggle_involutive (todo_id : Nat) (s : TaskStore) :
    toggle_todo todo_id (toggle_todo todo_id s) = s ∧
    ((∀ t ∈ s.todos, t.id ≠ todo_id) → toggle_todo todo_id s = s) ∧
    (toggle_todo todo_id s).next_id = s.next_id ∧
    ((s.todos.map Task.id).Nodup →
      (toggle_todo todo_id s).todos =
        s.todos.map (fun t =>
          if t.id = todo_id then { t with completed := !t.completed }
          else t)) := by
  refine ⟨?_, ?_, rfl, ?_⟩
  · show ({ s with todos := toggleFirst todo_id (toggleFirst todo_id
        s.todos) } : TaskStore) = s
    rw [toggleFirst_toggleFirst]
  · intro h
    show ({ s with todos := toggleFirst todo_id s.todos } : TaskStore) = s
    rw [toggleFirst_of_forall_ne todo_id s.todos h]
  · intro hn
    exact toggleFirst_eq_map hn

/-- Witness for C5 at concrete inputs: toggling id 1 twice restores the
store, toggling the absent id 7 is a no-op, and one toggle flips exactly the
completed flag of task 1. -/
theorem spec_toggle_involutive_witness :
    toggle_todo 1 (toggle_todo 1 (add_todo "t" "a" initialState)) =
      add_todo "t" "a" initialState ∧
    toggle_todo 7 (add_todo "t" "a" initialState) =
      add_todo "t" "a" initialState ∧
    (toggle_todo 1 (add_todo "t" "a" initialState)).todos =
      [{ id := 1, text := "a", completed := true, created_at := "t" }] := by
  have h1 := spec_toggle_involutive 1 (add_todo "t" "a" initialState)
  have h7 := spec_toggle_involutive 7 (add_todo "t" "a" initialState)
  refine ⟨h1.1, h7.2.1 (by decide), ?_⟩
  rw [h1.2.2.2 (by decide)]
  decide

/-- C6: `mark_all_completed()` sets the completed flag of every task that
existed at the time of the call, so the incomplete filter becomes empty and
the completed filter returns all existing tasks in insertion order, while a
task created afterwards still starts with `completed = false`. -/
theorem spec_mark_all (s : TaskStore) :
    (∀ t ∈ (mark_all_completed s).todos, t.completed = true) ∧
    get_filtered_todos "미완료" (mark_all_completed s) = [] ∧
    get_filtered_todos "완료" (mark_all_completed s) =
      (mark_all_completed s).todos ∧
    (mark_all_completed s).todos =
      s.todos.map (fun t => { t with completed := true }) ∧
    (mark_all_completed s).next_id = s.next_id ∧
    (∀ now text, strip text ≠ "" →
      (add_todo now text (mark_all_completed s)).todos =
        (mark_all_completed s).todos ++
          [{ id := s.next_id, text := strip text, completed := false,
             created_at := now }]) := by
  have hall : ∀ t ∈ (mark_all_completed s).todos, t.completed = true := by
    intro t ht
    rw [mark_all_completed] at ht
    simp only [List.mem_map] at ht
    obtain ⟨u, hu, rfl⟩ := ht
    rfl
  refine ⟨hall, ?_, ?_, rfl, rfl, ?_⟩
  · show (mark_all_completed s).todos.filter (fun todo => !todo.completed) = []
    rw [List.filter_eq_nil_iff]
    intro t ht
    simp [hall t ht]
  · show (mark_all_completed s).todos.filter (fun todo => todo.completed) =
      (mark_all_completed s).todos
    exact List.filter_eq_self.mpr (fun t ht => hall t ht)
  · intro now text h
    simp [add_todo, mark_all_completed, h]

/-- Witness for C6: after marking a one-task store complete, the incomplete
filter is empty, the completed filter returns the task list, and a fresh
creation still defaults to incomplete. -/
theorem spec_mark_all_witness :
    get_filtered_todos "미완료"
      (mark_all_completed (add_todo "t" "a" initialState)) = [] ∧
    get_filtered_todos "완료"
      (mark_all_completed (add_todo "t" "a" initialState)) =
      (mark_all_completed (add_todo "t" "a" initialState)).todos ∧
    (add_todo "u" "b"
        (mark_all_completed (add_todo "t" "a" initialState))).todos =
      (mark_all_completed (add_todo "t" "a" initialState)).todos ++
        [{ id := 2, text := "b", completed := false, created_at := "u" }] := by
  have h := spec_mark_all (add_todo "t" "a" initialState)
  exact ⟨h.2.1, h.2.2.1, h.2.2.2.2.2 "u" "b" (by decide)⟩

/-- C7: `delete_all()` empties the task list (so the statistics collapse to
all zeros) but keeps `next_id`, and a subsequent creation with non-blank
text yields the single task with id `next_id`, strictly above every id
bounded by the old counter. -/
theorem spec_delete_all (s : TaskStore) :
    (delete_all_todos s).todos = [] ∧
    get_statistics (delete_all_todos s) =
      { total := 0, completed := 0, pending := 0 } ∧
    (delete_all_todos s).next_id = s.next_id ∧
    (∀ now text, strip text ≠ "" →
      (add_todo now text (delete_all_todos s)).todos =
        [{ id := s.next_id, text := strip text, completed := false,
           created_at := now }]) ∧
    (∀ i, i < s.next_id → ∀ now text, strip text ≠ "" →
      ∀ t ∈ (add_todo now text (delete_all_todos s)).todos, i < t.id) := by
  refine ⟨rfl, rfl, rfl, ?_, ?_⟩
  · intro now text h
    simp [add_todo, delete_all_todos, h]
  · intro i hi now text h t ht
    simp only [add_todo, delete_all_todos, if_neg h, List.nil_append,
      List.mem_singleton] at ht
    subst ht
    exact hi

/-- Witness for C7: after clearing a one-task store the statistics are all
zero and the next creation gets id 2, not 1. -/
theorem spec_delete_all_witness :
    (delete_all_todos (add_todo "t" "a" initialState)).todos = [] ∧
    get_statistics (delete_all_todos (add_todo "t" "a" initialState)) =
      { total := 0, completed := 0, pending := 0 } ∧
    (add_todo "u" "b"
        (delete_all_todos (add_todo "t" "a" initialState))).todos =
      [{ id := 2, text := "b", completed := false, created_at := "u" }] := by
  have h := spec_delete_all (add_todo "t" "a" initialState)
  exact ⟨h.1, h.2.1, h.2.2.2.1 "u" "b" (by decide)⟩

/-- C8: the completed filter returns exactly the completed tasks, the
incomplete filter exactly the incomplete ones, the all-filter ("전체")
returns every task, and each result is an insertion-ordered subsequence of
the store; the store itself is not consulted beyond reading it. -/
theorem spec_filtered (filter_type : String) (s : TaskStore) :
    get_filtered_todos "완료" s =
      s.todos.filter (fun todo => todo.completed) ∧
    get_filtered_todos "미완료" s =
      s.todos.filter (fun todo => !todo.completed) ∧
    get_filtered_todos "전체" s = s.todos ∧
    List.Sublist (get_filtered_todos filter_type s) s.todos ∧
    (∀ t, t ∈ get_filtered_todos "완료" s ↔
      t ∈ s.todos ∧ t.completed = true) ∧
    (∀ t, t ∈ get_filtered_todos "미완료" s ↔
      t ∈ s.todos ∧ t.completed = false) := by
  refine ⟨rfl, rfl, rfl, ?_, ?_, ?_⟩
  · unfold get_filtered_todos
    by_cases h1 : filter_type = "완료"
    · rw [if_pos h1]; exact List.filter_sublist s.todos
    · rw [if_neg h1]
      by_cases h2 : filter_type = "미완료"
      · rw [if_pos h2]; exact List.filter_sublist s.todos
      · rw [if_neg h2]
  · intro t
    show t ∈ s.todos.filter (fun todo => todo.completed) ↔ _
    rw [List.mem_filter]
  · intro t
    show t ∈ s.todos.filter (fun todo => !todo.completed) ↔ _
    rw [List.mem_filter]
    simp

/-- Witness for C8: on a two-task store with task 1 toggled, the completed
filter is a subsequence of the task list. -/
theorem spec_filtered_witness :
    List.Sublist
      (get_filtered_todos "완료"
        (toggle_todo 1 (add_todo "u" "b" (add_todo "t" "a" initialState))))
      (toggle_todo 1
        (add_todo "u" "b" (add_todo "t" "a" initialState))).todos :=
  (spec_filtered "완료"
    (toggle_todo 1 (add_todo "u" "b" (add_todo "t" "a" initialState)))).2.2.2.1

/-- C9: `statistics()` reports the task count as `total`, the number of
completed tasks as `completed`, and `pending = total - completed`, so
`pending + completed = total` holds in every state. -/
theorem spec_statistics (s : TaskStore) :
    (get_statistics s).total = s.todos.length ∧
    (get_statistics s).completed =
      s.todos.countP (fun todo => todo.completed) ∧
    (get_statistics s).pending =
      (get_statistics s).total - (get_statistics s).completed ∧
    (get_statistics s).pending + (get_statistics s).completed =
      (get_statistics s).total := by
  refine ⟨rfl, ?_, rfl, ?_⟩
  · show (s.todos.filter (fun todo => todo.completed)).length =
      s.todos.countP (fun todo => todo.completed)
    rw [List.countP_eq_length_filter]
  · have hle : (s.todos.filter (fun todo => todo.completed)).length ≤
        s.todos.length := s.todos.length_filter_le _
    exact Nat.sub_add_cancel hle

/-- Witness for C9 on a concrete store with one completed and one pending
task. -/
theorem spec_statistics_witness :
    (get_statistics (toggle_todo 1
        (add_todo "u" "b" (add_todo "t" "a" initialState)))).pending +
      (get_statistics (toggle_todo 1
        (add_todo "u" "b" (add_todo "t" "a" initialState)))).completed =
      (get_statistics (toggle_todo 1
        (add_todo "u" "b" (add_todo "t" "a" initialState)))).total :=
  (spec_statistics (toggle_todo 1
    (add_todo "u" "b" (add_todo "t" "a" initialState)))).2.2.2

/-- C10: no operation other than `create` moves `next_id`; toggling and
updating keep the id sequence intact, and on duplicate-free stores they
rewrite exactly the targeted field of the targeted task, leaving the other
fields and all other tasks untouched. -/
theorem spec_frame_effects (todo_id : Nat) (new_text : String)
    (s : TaskStore) :
    (delete_todo todo_id s).next_id = s.next_id ∧
    (toggle_todo todo_id s).next_id = s.next_id ∧
    (update_todo todo_id new_text s).next_id = s.next_id ∧
    (mark_all_completed s).next_id = s.next_id ∧
    (delete_all_todos s).next_id = s.next_id ∧
    (toggle_todo todo_id s).todos.map Task.id = s.todos.map Task.id ∧
    (update_todo todo_id new_text s).todos.map Task.id =
      s.todos.map Task.id ∧
    ((s.todos.map Task.id).Nodup →
      (toggle_todo todo_id s).todos =
        s.todos.map (fun t =>
          if t.id = todo_id then { t with completed := !t.completed }
          else t)) ∧
    (strip new_text ≠ "" → (s.todos.map Task.id).Nodup →
      (update_todo todo_id new_text s).todos =
        s.todos.map (fun t =>
          if t.id = todo_id then { t with text := strip new_text }
          else t)) := by
  refine ⟨rfl, rfl, ?_, rfl, rfl, ?_, ?_, ?_, ?_⟩
  · unfold update_todo
    by_cases h : strip new_text = ""
    · rw [if_pos h]
    · rw [if_neg h]
  · exact toggleFirst_map_id todo_id s.todos
  · unfold update_todo
    by_cases h : strip new_text = ""
    · rw [if_pos h]
    · rw [if_neg h]
      exact updateFirst_map_id todo_id (strip new_text) s.todos
  · intro hn
    exact toggleFirst_eq_map hn
  · intro h hn
    unfold update_todo
    rw [if_neg h]
    exact updateFirst_eq_map hn

/-- Witness for C10 on a one-task store: toggle keeps the counter, update
keeps the id sequence, and toggle rewrites only the completed flag. -/
theorem spec_frame_effects_witness :
    (toggle_todo 1 (add_todo "t" "a" initialState)).next_id =
      (add_todo "t" "a" initialState).next_id ∧
    (update_todo 1 "c" (add_todo "t" "a" initialState)).todos.map Task.id =
      (add_todo "t" "a" initialState).todos.map Task.id ∧
    (toggle_todo 1 (add_todo "t" "a" initialState)).todos =
      (add_todo "t" "a" initialState).todos.map (fun t =>
        if t.id = 1 then { t with completed := !t.completed } else t) := by
  have h := spec_frame_effects 1 "c" (add_todo "t" "a" initialState)
  exact ⟨h.2.1, h.2.2.2.2.2.2.1, h.2.2.2.2.2.2.2.1 (by decide)⟩

end TodoApp
